import Mathlib

/-!
Shallow embedding of `aiokafka/consumer.py` (`AIOKafkaConsumer`).

The consumer is modelled as a state machine over `ConsumerState`.  Calls to
the external collaborators (AIOKafkaClient, GroupCoordinator, Fetcher) are
recorded as an explicit trace of `Effect`s, and the collaborators' replies
are supplied by an `Env` oracle.  Each public coroutine/method of the Python
class becomes a Lean function returning an `Out`: the post state, the trace
of collaborator calls made, and the result (`Except PyError` models Python
exceptions: `assert` raises AssertionError, explicit raises are ValueError).
Coroutine loops (`getone`, `getmany`) take a fuel argument; running out of
fuel is reported as a `none` result, distinct from any return of the code.
-/

/-- A topic partition: `kafka.common.TopicPartition` (topic, partition). -/
structure TopicPartition where
  topic : String
  part : Nat
deriving DecidableEq, Repr

/-- `kafka.common.OffsetAndMetadata`: a committed offset plus an opaque string. -/
structure OffsetAndMetadata where
  offset : Int
  metadata : String
deriving DecidableEq, Repr

/-- Per-partition state held by the subscription for each assigned partition
(position / committed / highwater, each unset until resolved). -/
structure PartitionData where
  position : Option Int
  committed : Option Int
  highwater : Option Int
deriving DecidableEq, Repr

/-- A fresh, unresolved partition state. -/
def freshPartitionData : PartitionData :=
  { position := none, committed := none, highwater := none }

/-- The assignment map `TopicPartition -> state`, as an association list. -/
abbrev Assignment := List (TopicPartition × PartitionData)

/-- Lookup in the assignment map (Python `dict` access). -/
def lookupTP : Assignment → TopicPartition → Option PartitionData
  | [], _ => none
  | x :: rest, p => if x.1 = p then some x.2 else lookupTP rest p

/-- Exceptions the consumer code raises: Python `assert` failures and
explicit `raise ValueError`. -/
inductive PyError where
  | assertionError
  | valueError
deriving DecidableEq, Repr

/-- The argument value handed to `_update_fetch_positions` (and through it to
`Fetcher.update_fetch_positions`): either a bare `TopicPartition` (as passed
by `position()`) or a collection of partitions (as passed by `getone` /
`getmany`). -/
inductive PartitionsArg where
  | single (p : TopicPartition)
  | many (ps : List TopicPartition)
deriving DecidableEq, Repr

/-- The partitions denoted by a `PartitionsArg` for the purpose of the
fetcher's position resolution. -/
def PartitionsArg.toList : PartitionsArg → List TopicPartition
  | .single p => [p]
  | .many ps => ps

/-- One collaborator call made by the consumer, recorded in the trace. -/
inductive Effect where
  | coordClose
  | fetcherClose
  | clientClose
  | refreshCommitted
  | fetchCommitted (ps : List TopicPartition)
  | fetcherUpdate (arg : PartitionsArg)
  | commitOffsets (offs : List (TopicPartition × OffsetAndMetadata))
  | sleep
  | fetchedRecordsQuery (ps : List TopicPartition)
  | nextRecordQuery (ps : List TopicPartition)
  | bootstrap
  | checkVersion
  | buildFetcher
  | buildCoordinator
  | ensureActiveGroup
  | forceMetadataUpdate
deriving DecidableEq, Repr

/-- A record returned from a fetch, reduced to its identifying fields. -/
structure ConsumerRecord where
  tp : TopicPartition
  offset : Int
deriving DecidableEq, Repr

/-- The consumer's own state: configuration fixed at construction plus the
mutable fields of `AIOKafkaConsumer` the claims touch (`_closed`,
`_fetcher` / `_coordinator` being constructed, the subscription's
assignment map, and the parsed api version). -/
structure ConsumerState where
  groupId : Option String
  apiVersionCfg : String
  apiVersionTuple : Option (List Int)
  closed : Bool
  hasCoordinator : Bool
  hasFetcher : Bool
  needsPartitionAssignment : Bool
  topics : List String
  assignment : Assignment
deriving DecidableEq, Repr

/-- Replies of the external collaborators, one oracle per call they serve.
`Option PyError` fields: `none` means the call succeeds, `some e` means it
raises `e`.  Indexed oracles (`buffered`, `nextRecord`, `clock`) give the
reply to the k-th such call inside one polling loop. -/
structure Env where
  bootstrapResult : Option PyError
  checkVersionResult : String
  coordCloseResult : Option PyError
  fetcherCloseResult : Option PyError
  clientCloseResult : Option PyError
  commitResult : Option PyError
  refreshResult : TopicPartition → Option Int
  fetchCommittedResult : TopicPartition → Option Int
  resolvePosition : TopicPartition → Option Int
  buffered : Nat → List TopicPartition → List (TopicPartition × List ConsumerRecord)
  nextRecord : Nat → List TopicPartition → Option ConsumerRecord
  clock : Nat → ℚ
  partitionsForTopic : String → List Nat

instance {ε α : Type} [DecidableEq ε] [DecidableEq α] : DecidableEq (Except ε α) :=
  fun a b =>
    match a, b with
    | .ok x, .ok y =>
      if h : x = y then .isTrue (by rw [h]) else .isFalse (by simp [h])
    | .error x, .error y =>
      if h : x = y then .isTrue (by rw [h]) else .isFalse (by simp [h])
    | .ok _, .error _ => .isFalse (by simp)
    | .error _, .ok _ => .isFalse (by simp)

/-- Result of running one consumer operation: post state, trace of
collaborator calls, and outcome. -/
structure Out (α : Type) where
  state : ConsumerState
  trace : List Effect
  result : Except PyError α
deriving DecidableEq, Repr

/-! ## Subscription-state helpers (interface of `SubscriptionState` as the
consumer observes it) -/

/-- `self._subscription.assigned_partitions()`. -/
def assignedPartitions (s : ConsumerState) : List TopicPartition :=
  s.assignment.map (·.1)

/-- `self._subscription.is_assigned(partition)`. -/
def isAssigned (s : ConsumerState) (p : TopicPartition) : Bool :=
  (lookupTP s.assignment p).isSome

/-- `self._subscription.assignment[p].position` (for assigned `p`). -/
def positionOf (s : ConsumerState) (p : TopicPartition) : Option Int :=
  match lookupTP s.assignment p with
  | some st => st.position
  | none => none

/-- `self._subscription.assignment[p].committed` (for assigned `p`). -/
def committedOf (s : ConsumerState) (p : TopicPartition) : Option Int :=
  match lookupTP s.assignment p with
  | some st => st.committed
  | none => none

/-- `self._subscription.missing_fetch_positions()`: assigned partitions whose
position is unresolved. -/
def missingFetchPositions (s : ConsumerState) : List TopicPartition :=
  (s.assignment.filter (fun x => x.2.position = none)).map (·.1)

/-- `self._subscription.has_all_fetch_positions()`. -/
def hasAllFetchPositions (s : ConsumerState) : Bool :=
  missingFetchPositions s = []

/-- `self._subscription.all_consumed_offsets()`: snapshot of every resolved
position as an `OffsetAndMetadata`. -/
def allConsumedOffsets (s : ConsumerState) : List (TopicPartition × OffsetAndMetadata) :=
  s.assignment.filterMap (fun x =>
    match x.2.position with
    | some k => some (x.1, { offset := k, metadata := "" })
    | none => none)

/-- `self._subscription.assignment[p].seek(offset)`: overwrite `p`'s position. -/
def setPosition (s : ConsumerState) (p : TopicPartition) (k : Int) : ConsumerState :=
  { s with assignment := s.assignment.map (fun x =>
      if x.1 = p then (x.1, { x.2 with position := some k }) else x) }

/-! ## Collaborator state effects -/

/-- Effect on the subscription of `GroupCoordinator.refresh_committed_offsets()`:
for every assigned partition the broker knows a commit for, the cached
`committed` field is updated; partitions with no remote commit keep their
cached value. -/
def applyRefresh (env : Env) (s : ConsumerState) : ConsumerState :=
  { s with assignment := s.assignment.map (fun x =>
      match env.refreshResult x.1 with
      | some c => (x.1, { x.2 with committed := some c })
      | none => x) }

/-- Effect on the subscription of `Fetcher.update_fetch_positions(partitions)`:
each named partition that is assigned and still lacks a position receives the
position the fetcher resolves for it (committed offset or reset policy). -/
def applyFetcherUpdate (env : Env) (s : ConsumerState) (arg : PartitionsArg) : ConsumerState :=
  { s with assignment := s.assignment.map (fun x =>
      if x.1 ∈ arg.toList ∧ x.2.position = none then
        match env.resolvePosition x.1 with
        | some k => (x.1, { x.2 with position := some k })
        | none => x
      else x) }

/-! ## The consumer's operations -/

/-- `AIOKafkaConsumer.__init__`: rejects any `api_version` other than
`'auto'` or `'0.9'` with a ValueError, synchronously; otherwise builds the
initial state (no fetcher/coordinator yet, nothing closed). -/
def consumerInit (apiVersion : String) (groupId : Option String)
    (topics : List String) : Except PyError ConsumerState :=
  if apiVersion = "auto" ∨ apiVersion = "0.9" then
    .ok { groupId := groupId
          apiVersionCfg := apiVersion
          apiVersionTuple := none
          closed := false
          hasCoordinator := false
          hasFetcher := false
          needsPartitionAssignment := ¬ topics.isEmpty
          topics := topics
          assignment := [] }
  else
    .error .valueError

/-- `v.split('.')` on the character list of `v`. -/
def splitDots : List Char → List (List Char)
  | [] => [[]]
  | c :: rest =>
    let r := splitDots rest
    if c = '.' then [] :: r
    else
      match r with
      | [] => [[c]]
      | h :: t => (c :: h) :: t

/-- Python `int(component)` on a version component: defined exactly on
non-empty all-digit strings (what `check_version` produces); `none` models
the ValueError `int()` raises otherwise. -/
def digitsToNat (cs : List Char) : Option Nat :=
  if cs.isEmpty then none
  else
    cs.foldl (fun acc c =>
      match acc with
      | some n => if c.isDigit then some (n * 10 + (c.toNat - 48)) else none
      | none => none) (some 0)

/-- `tuple(map(int, v.split('.')))`: parse a version string; `none` models
the ValueError `int()` raises on a malformed component. -/
def parseVersion (v : String) : Option (List Int) :=
  let parts := (splitDots v.toList).map digitsToNat
  if parts.all (fun x => x.isSome) then
    some (parts.map (fun x => ((x.getD 0 : Nat) : Int)))
  else none

/-- Python tuple `<` on int tuples: lexicographic, a strict prefix is smaller. -/
def tupLt : List Int → List Int → Bool
  | [], [] => false
  | [], _ :: _ => true
  | _ :: _, [] => false
  | a :: as, b :: bs => if a < b then true else if b < a then false else tupLt as bs

/-- The version string `start` adopts: the configured one, or the detected
one when the configuration is `'auto'`. -/
def adoptedVersion (env : Env) (s : ConsumerState) : String :=
  if s.apiVersionCfg = "auto" then env.checkVersionResult else s.apiVersionCfg

/-- `AIOKafkaConsumer.start()`: bootstrap the client, adopt/parse the api
version, reject versions below (0, 9) with a ValueError *before* building
the Fetcher and GroupCoordinator; then build both and either join the group
or compute a static assignment from metadata. -/
def start (env : Env) (s : ConsumerState) : Out Unit :=
  match env.bootstrapResult with
  | some e => { state := s, trace := [.bootstrap], result := .error e }
  | none =>
    let trPre : List Effect :=
      if s.apiVersionCfg = "auto" then [.bootstrap, .checkVersion] else [.bootstrap]
    match parseVersion (adoptedVersion env s) with
    | none => { state := s, trace := trPre, result := .error .valueError }
    | some tup =>
      let s0 := { s with apiVersionTuple := some tup }
      if tupLt tup [0, 9] then
        { state := s0, trace := trPre, result := .error .valueError }
      else
        let s1 := { s0 with hasFetcher := true, hasCoordinator := true }
        let trB := trPre ++ [.buildFetcher, .buildCoordinator]
        match s1.groupId with
        | some _ =>
          { state := s1, trace := trB ++ [.ensureActiveGroup], result := .ok () }
        | none =>
          if s1.needsPartitionAssignment then
            let parts := s1.topics.flatMap (fun t =>
              (env.partitionsForTopic t).map (fun i => TopicPartition.mk t i))
            let s2 := { s1 with
              needsPartitionAssignment := false
              assignment := parts.map (fun tp => (tp, freshPartitionData)) }
            { state := s2, trace := trB ++ [.forceMetadataUpdate], result := .ok () }
          else
            { state := s1, trace := trB, result := .ok () }

/-- The final `yield from self._client.close()` of `stop`. -/
def stopClient (env : Env) (s1 : ConsumerState) (tr : List Effect) : Out Unit :=
  match env.clientCloseResult with
  | some e => { state := s1, trace := tr ++ [.clientClose], result := .error e }
  | none => { state := s1, trace := tr ++ [.clientClose], result := .ok () }

/-- The tail of `stop` from the fetcher close onwards. -/
def stopAfterCoordinator (env : Env) (s1 : ConsumerState) (tr : List Effect) : Out Unit :=
  if s1.hasFetcher then
    match env.fetcherCloseResult with
    | some e => { state := s1, trace := tr ++ [.fetcherClose], result := .error e }
    | none => stopClient env s1 (tr ++ [.fetcherClose])
  else
    stopClient env s1 tr

/-- `AIOKafkaConsumer.stop()`: return at once if already closed; otherwise
mark closed, then close the coordinator (if built), the fetcher (if built),
and the client, each awaited in turn.  A close call that raises propagates
immediately: there is no exception handling around any of the three. -/
def stop (env : Env) (s : ConsumerState) : Out Unit :=
  if s.closed then
    { state := s, trace := [], result := .ok () }
  else
    let s1 := { s with closed := true }
    if s1.hasCoordinator then
      match env.coordCloseResult with
      | some e => { state := s1, trace := [.coordClose], result := .error e }
      | none => stopAfterCoordinator env s1 [Effect.coordClose]
    else
      stopAfterCoordinator env s1 []

/-- `AIOKafkaConsumer.commit(offsets=None)`: asserts a group id is
configured; with `offsets=None` the snapshot `all_consumed_offsets()` is
taken synchronously and handed to `GroupCoordinator.commit_offsets`, the
only suspension point of the call. -/
def commit (env : Env) (s : ConsumerState)
    (offsets : Option (List (TopicPartition × OffsetAndMetadata))) : Out Unit :=
  match s.groupId with
  | none => { state := s, trace := [], result := .error .assertionError }
  | some _ =>
    let offs := match offsets with
      | none => allConsumedOffsets s
      | some o => o
    match env.commitResult with
    | some e => { state := s, trace := [.commitOffsets offs], result := .error e }
    | none => { state := s, trace := [.commitOffsets offs], result := .ok () }

/-- `AIOKafkaConsumer.committed(partition)`: asserts a group id; for an
assigned partition returns the cached committed value, refreshing once from
the coordinator when the cache is unset; for an unassigned partition does a
one-off `fetch_committed_offsets([partition])` and returns `None` when the
coordinator reports no commit. -/
def committedOp (env : Env) (s : ConsumerState) (p : TopicPartition) :
    Out (Option Int) :=
  match s.groupId with
  | none => { state := s, trace := [], result := .error .assertionError }
  | some _ =>
    match lookupTP s.assignment p with
    | some st =>
      match st.committed with
      | some c => { state := s, trace := [], result := .ok (some c) }
      | none =>
        let s1 := applyRefresh env s
        { state := s1, trace := [.refreshCommitted], result := .ok (committedOf s1 p) }
    | none =>
      { state := s, trace := [.fetchCommitted [p]],
        result := .ok (env.fetchCommittedResult p) }

/-- `AIOKafkaConsumer._update_fetch_positions(partitions)`: when a group id
is configured, first refresh committed offsets for all assigned partitions
from the coordinator, then in any case delegate the remaining lookups to
`Fetcher.update_fetch_positions`, passing along the argument unchanged. -/
def updateFetchPositions (env : Env) (s : ConsumerState) (arg : PartitionsArg) :
    ConsumerState × List Effect :=
  match s.groupId with
  | some _ =>
    let s1 := applyRefresh env s
    (applyFetcherUpdate env s1 arg, [.refreshCommitted, .fetcherUpdate arg])
  | none =>
    (applyFetcherUpdate env s arg, [.fetcherUpdate arg])

/-- `AIOKafkaConsumer.position(partition)`: asserts the partition is
assigned; when its position is unresolved, runs position resolution passing
the bare partition, then re-reads the position. -/
def positionOp (env : Env) (s : ConsumerState) (p : TopicPartition) :
    Out (Option Int) :=
  if isAssigned s p then
    match positionOf s p with
    | some off => { state := s, trace := [], result := .ok (some off) }
    | none =>
      let (s1, tr) := updateFetchPositions env s (.single p)
      { state := s1, trace := tr, result := .ok (positionOf s1 p) }
  else
    { state := s, trace := [], result := .error .assertionError }

/-- `AIOKafkaConsumer.seek(partition, offset)`: asserts the offset is a
non-negative integer and the partition assigned; on success overwrites the
position synchronously, making no collaborator call at all. -/
def seek (s : ConsumerState) (p : TopicPartition) (k : Int) : Out Unit :=
  if k < 0 then
    { state := s, trace := [], result := .error .assertionError }
  else if isAssigned s p then
    { state := setPosition s p k, trace := [], result := .ok () }
  else
    { state := s, trace := [], result := .error .assertionError }

/-- One iteration of the loop body of `seek_to_committed`: resolve the
committed offset via `committed(tp)` and seek to it only when the Python
test `offset and offset > 0` holds, i.e. only when it is strictly positive. -/
def seekToCommittedStep (env : Env) (s : ConsumerState) (tp : TopicPartition) :
    Out Unit :=
  let c := committedOp env s tp
  match c.result with
  | .error e => { state := c.state, trace := c.trace, result := .error e }
  | .ok off =>
    match off with
    | some v =>
      if 0 < v then
        let sk := seek c.state tp v
        { state := sk.state, trace := c.trace ++ sk.trace, result := sk.result }
      else
        { state := c.state, trace := c.trace, result := .ok () }
    | none => { state := c.state, trace := c.trace, result := .ok () }

/-- The `for tp in partitions` loop of `seek_to_committed`. -/
def seekToCommittedLoop (env : Env) : ConsumerState → List TopicPartition → Out Unit
  | s, [] => { state := s, trace := [], result := .ok () }
  | s, tp :: rest =>
    let r := seekToCommittedStep env s tp
    match r.result with
    | .error e => { state := r.state, trace := r.trace, result := .error e }
    | .ok _ =>
      let r2 := seekToCommittedLoop env r.state rest
      { state := r2.state, trace := r.trace ++ r2.trace, result := r2.result }

/-- `AIOKafkaConsumer.seek_to_committed(*partitions)`: with no explicit
partitions defaults to all assigned ones, asserting some exist; with
explicit partitions asserts each is assigned; then runs the loop. -/
def seekToCommitted (env : Env) (s : ConsumerState)
    (partitions : List TopicPartition) : Out Unit :=
  if partitions.isEmpty then
    let ps := assignedPartitions s
    if ps.isEmpty then
      { state := s, trace := [], result := .error .assertionError }
    else
      seekToCommittedLoop env s ps
  else
    if partitions.all (fun p => isAssigned s p) then
      seekToCommittedLoop env s partitions
    else
      { state := s, trace := [], result := .error .assertionError }

/-- The `while True` loop of `getone`, with fuel; iteration index `k` feeds
the indexed oracles.  A `none` record result means the fuel ran out with the
loop still running. -/
def getoneLoop (env : Env) (ps : List TopicPartition) :
    Nat → Nat → ConsumerState → ConsumerState × List Effect × Option ConsumerRecord
  | 0, _, s => (s, [], none)
  | fuel + 1, k, s =>
    if (assignedPartitions s).isEmpty then
      let (s2, tr, r) := getoneLoop env ps fuel (k + 1) s
      (s2, .sleep :: tr, r)
    else
      let (s1, tr1) :=
        if hasAllFetchPositions s then (s, ([] : List Effect))
        else updateFetchPositions env s (.many (missingFetchPositions s))
      match env.nextRecord k ps with
      | some msg => (s1, tr1 ++ [.nextRecordQuery ps], some msg)
      | none =>
        let (s2, tr, r) := getoneLoop env ps fuel (k + 1) s1
        (s2, tr1 ++ [.nextRecordQuery ps, .sleep] ++ tr, r)

/-- `AIOKafkaConsumer.getone(*partitions)`: wait for an assignment, resolve
missing positions, then poll `Fetcher.next_record` with a poll-interval
sleep between attempts, forever until a record shows up. -/
def getone (env : Env) (s : ConsumerState) (ps : List TopicPartition)
    (fuel : Nat) : Out (Option ConsumerRecord) :=
  let (s1, tr, r) := getoneLoop env ps fuel 0 s
  { state := s1, trace := tr, result := .ok r }

/-- The `while True` loop of `getmany`, with fuel: query the buffer, return
any records at once; otherwise sleep one poll interval and return the empty
mapping as soon as the elapsed time reaches the timeout.  `clock (k+1)` is
the `loop.time()` reading taken after the k-th sleep. -/
def getmanyLoop (env : Env) (ps : List TopicPartition) (startTime timeout : ℚ) :
    Nat → Nat → List Effect × Option (List (TopicPartition × List ConsumerRecord))
  | 0, _ => ([], none)
  | fuel + 1, k =>
    let records := env.buffered k ps
    if records.isEmpty then
      if timeout ≤ env.clock (k + 1) - startTime then
        ([.fetchedRecordsQuery ps, .sleep], some [])
      else
        let (tr, r) := getmanyLoop env ps startTime timeout fuel (k + 1)
        (.fetchedRecordsQuery ps :: .sleep :: tr, r)
    else
      ([.fetchedRecordsQuery ps], some records)

/-- `AIOKafkaConsumer.getmany(*partitions, timeout_ms=0)`: resolve missing
positions once up front, record the start time, then run the polling loop
with deadline `timeout_ms / 1000` seconds. -/
def getmany (env : Env) (s : ConsumerState) (ps : List TopicPartition)
    (timeoutMs : ℚ) (fuel : Nat) :
    Out (Option (List (TopicPartition × List ConsumerRecord))) :=
  let (s1, tr1) :=
    if hasAllFetchPositions s then (s, ([] : List Effect))
    else updateFetchPositions env s (.many (missingFetchPositions s))
  let startTime := env.clock 0
  let (tr2, r) := getmanyLoop env ps startTime (timeoutMs / 1000) fuel 0
  { state := s1, trace := tr1 ++ tr2, result := .ok r }

/-! ## Concrete fixtures used by witnesses and counterexamples -/

/-- A sample partition. -/
def tpA : TopicPartition := { topic := "T", part := 0 }

/-- An environment where every collaborator call succeeds and nothing is
buffered, committed, or resolvable; the clock ticks one second per reading. -/
def env0 : Env :=
  { bootstrapResult := none
    checkVersionResult := "0.9"
    coordCloseResult := none
    fetcherCloseResult := none
    clientCloseResult := none
    commitResult := none
    refreshResult := fun _ => none
    fetchCommittedResult := fun _ => none
    resolvePosition := fun _ => none
    buffered := fun _ _ => []
    nextRecord := fun _ _ => none
    clock := fun k => (k : ℚ)
    partitionsForTopic := fun _ => [] }

/-- `env0` with a failing `GroupCoordinator.close()`. -/
def envCoordFail : Env := { env0 with coordCloseResult := some .valueError }

/-- `env0` with a coordinator that knows a committed offset `7` for every
partition. -/
def envRefresh7 : Env := { env0 with refreshResult := fun _ => some 7 }

/-- `env0` with an auto-detected broker version below the supported minimum. -/
def envOldBroker : Env := { env0 with checkVersionResult := "0.8.2" }

/-- A started consumer (group `"g"`, fetcher and coordinator built) with one
assigned partition whose position is resolved to `5`. -/
def startedState : ConsumerState :=
  { groupId := some "g"
    apiVersionCfg := "0.9"
    apiVersionTuple := some [0, 9]
    closed := false
    hasCoordinator := true
    hasFetcher := true
    needsPartitionAssignment := false
    topics := ["T"]
    assignment := [(tpA, { position := some 5, committed := none, highwater := none })] }

/-- `startedState` with the partition's position still unresolved. -/
def unresolvedState : ConsumerState :=
  { startedState with assignment := [(tpA, freshPartitionData)] }

/-- A freshly constructed consumer configured for version auto-detection. -/
def autoState : ConsumerState :=
  { groupId := none
    apiVersionCfg := "auto"
    apiVersionTuple := none
    closed := false
    hasCoordinator := false
    hasFetcher := false
    needsPartitionAssignment := false
    topics := []
    assignment := [] }

/-! ## Helper lemmas -/

theorem stopClient_state (env : Env) (s1 : ConsumerState) (tr : List Effect) :
    (stopClient env s1 tr).state = s1 := by
  cases h : env.clientCloseResult <;> simp [stopClient, h]

theorem stopAfterCoordinator_state (env : Env) (s1 : ConsumerState)
    (tr : List Effect) : (stopAfterCoordinator env s1 tr).state = s1 := by
  unfold stopAfterCoordinator
  cases hf : s1.hasFetcher
  · simp [hf, stopClient_state]
  · cases h : env.fetcherCloseResult <;> simp [hf, h, stopClient_state]

theorem stop_state_closed (env : Env) (s : ConsumerState) :
    (stop env s).state.closed = true := by
  unfold stop
  cases hcl : s.closed
  · cases hco : s.hasCoordinator
    · simp [hcl, hco, stopAfterCoordinator_state]
    · cases hcc : env.coordCloseResult
      · simp [hcl, hco, hcc, stopAfterCoordinator_state]
      · simp [hcl, hco, hcc]
  · simp [hcl]

/-! ## Claims -/

/-- C9: `stop()` is idempotent — once a first `stop()` call has run (its
post state always carries `closed = true`), any further `stop()` call, under
any collaborator behaviour, makes no collaborator call, changes nothing, and
returns normally. -/
theorem stop_idempotent (env env2 : Env) (s : ConsumerState) :
    stop env2 (stop env s).state =
      { state := (stop env s).state, trace := [], result := .ok () } := by
  have h := stop_state_closed env s
  set s2 := (stop env s).state with hs
  unfold stop
  simp [h]

/-- C1 counterexample: on a started consumer whose coordinator close raises,
`stop()` makes the coordinator-close call only — the fetcher close and the
client close are never attempted and the error propagates, contradicting
"a failure raised by one close step does not prevent the subsequent close
steps from being attempted". -/
theorem stop_failure_skips_later_closes :
    (stop envCoordFail startedState).trace = [Effect.coordClose] ∧
    Effect.fetcherClose ∉ (stop envCoordFail startedState).trace ∧
    Effect.clientClose ∉ (stop envCoordFail startedState).trace ∧
    (stop envCoordFail startedState).result = .error .valueError := by
  decide

/-- C1 (amended): on a started, not-yet-closed consumer the three close
steps run in order (coordinator, fetcher, client) as long as each succeeds;
but a failure raised by one close step propagates at once and the remaining
close steps are not attempted. -/
theorem stop_close_order (env : Env) (s : ConsumerState)
    (hcl : s.closed = false) (hco : s.hasCoordinator = true)
    (hf : s.hasFetcher = true) :
    (env.coordCloseResult = none → env.fetcherCloseResult = none →
      (stop env s).trace =
        [Effect.coordClose, Effect.fetcherClose, Effect.clientClose]) ∧
    (∀ e, env.coordCloseResult = some e →
      (stop env s).trace = [Effect.coordClose] ∧
      (stop env s).result = .error e) ∧
    (∀ e, env.coordCloseResult = none → env.fetcherCloseResult = some e →
      (stop env s).trace = [Effect.coordClose, Effect.fetcherClose] ∧
      (stop env s).result = .error e) := by
  refine ⟨?_, ?_, ?_⟩
  · intro h1 h2
    unfold stop stopAfterCoordinator stopClient
    cases h3 : env.clientCloseResult <;> simp [hcl, hco, hf, h1, h2, h3]
  · intro e h1
    unfold stop
    simp [hcl, hco, h1]
  · intro e h1 h2
    unfold stop stopAfterCoordinator stopClient
    simp [hcl, hco, hf, h1, h2]

/-- C1 witness: with every close succeeding, the three closes run in order. -/
theorem stop_close_order_witness :
    (stop env0 startedState).trace =
      [Effect.coordClose, Effect.fetcherClose, Effect.clientClose] :=
  (stop_close_order env0 startedState rfl rfl rfl).1 rfl rfl

theorem lookupTP_setPosition (p : TopicPartition) (k : Int) :
    ∀ (a : Assignment) (st : PartitionData), lookupTP a p = some st →
      lookupTP (a.map (fun x =>
        if x.1 = p then (x.1, { x.2 with position := some k }) else x)) p =
        some { st with position := some k }
  | [], st, h => by simp [lookupTP] at h
  | hd :: tl, st, h => by
    by_cases hp : hd.1 = p
    · simp [lookupTP, hp] at h
      simp [lookupTP, hp, h]
    · simp [lookupTP, hp] at h
      simpa [lookupTP, hp] using lookupTP_setPosition p k tl st h

theorem positionOf_setPosition (s : ConsumerState) (p : TopicPartition)
    (k : Int) (h : isAssigned s p = true) :
    positionOf (setPosition s p k) p = some k := by
  unfold isAssigned at h
  cases hl : lookupTP s.assignment p with
  | none => rw [hl] at h; simp at h
  | some st =>
    unfold positionOf setPosition
    simp [lookupTP_setPosition p k s.assignment st hl]

/-- C3: every position-resolution run (`_update_fetch_positions`) with a
configured group id makes exactly one coordinator
`refresh_committed_offsets` call — which updates the committed cache of all
assigned partitions — before the single `Fetcher.update_fetch_positions`
call; with no group id, no coordinator call is made and only the fetcher is
consulted. -/
theorem update_fetch_positions_coordinator (env : Env) (s : ConsumerState)
    (arg : PartitionsArg) :
    (∀ g, s.groupId = some g →
      (updateFetchPositions env s arg).2 =
        [Effect.refreshCommitted, Effect.fetcherUpdate arg] ∧
      (updateFetchPositions env s arg).1 =
        applyFetcherUpdate env (applyRefresh env s) arg) ∧
    (s.groupId = none →
      (updateFetchPositions env s arg).2 = [Effect.fetcherUpdate arg] ∧
      (updateFetchPositions env s arg).1 = applyFetcherUpdate env s arg) := by
  constructor
  · intro g hg
    simp [updateFetchPositions, hg]
  · intro hg
    simp [updateFetchPositions, hg]

/-- C3 witness: with group `"g"` the refresh precedes the fetcher call. -/
theorem update_fetch_positions_coordinator_witness :
    (updateFetchPositions env0 startedState (.many [tpA])).2 =
      [Effect.refreshCommitted, Effect.fetcherUpdate (.many [tpA])] :=
  ((update_fetch_positions_coordinator env0 startedState
    (.many [tpA])).1 "g" rfl).1

/-- C5: `commit()` with no group id fails with an assertion error, making no
collaborator call and leaving the state unchanged; with a group id and
`offsets=None` the mapping handed to `GroupCoordinator.commit_offsets` is
exactly the `all_consumed_offsets()` snapshot of the state at call entry,
taken before the only suspension point (the commit call itself). -/
theorem commit_snapshot (env : Env) (s : ConsumerState) :
    (∀ o, s.groupId = none →
      commit env s o =
        { state := s, trace := [], result := .error .assertionError }) ∧
    (∀ g, s.groupId = some g →
      (commit env s none).trace =
        [Effect.commitOffsets (allConsumedOffsets s)] ∧
      (commit env s none).state = s) := by
  constructor
  · intro o hg
    simp [commit, hg]
  · intro g hg
    cases hc : env.commitResult <;> simp [commit, hg, hc]

/-- C5 witness: committing with default offsets sends the position snapshot. -/
theorem commit_snapshot_witness :
    (commit env0 startedState none).trace =
      [Effect.commitOffsets
        [(tpA, { offset := 5, metadata := "" })]] := by
  have h := ((commit_snapshot env0 startedState).2 "g" rfl).1
  simpa [allConsumedOffsets, startedState, tpA] using h

/-- C6: `seek(p, k)` fails with an assertion error exactly when `k < 0` or
`p` is not assigned, and then changes nothing; otherwise it synchronously
overwrites `p`'s position to exactly `k`; in every case it makes no
collaborator call (no Client, Fetcher or GroupCoordinator operation). -/
theorem seek_spec (s : ConsumerState) (p : TopicPartition) (k : Int) :
    ((seek s p k).result = .error .assertionError ↔
      (k < 0 ∨ isAssigned s p = false)) ∧
    ((k < 0 ∨ isAssigned s p = false) → (seek s p k).state = s) ∧
    (0 ≤ k → isAssigned s p = true →
      (seek s p k).state = setPosition s p k ∧
      positionOf (seek s p k).state p = some k) ∧
    (seek s p k).trace = [] := by
  refine ⟨?_, ?_, ?_, ?_⟩
  · by_cases hk : k < 0
    · simp [seek, hk]
    · cases ha : isAssigned s p <;> simp [seek, hk, ha]
  · intro h
    rcases h with hk | ha
    · simp [seek, hk]
    · by_cases hk : k < 0
      · simp [seek, hk]
      · simp [seek, hk, ha]
  · intro hk ha
    have hk2 : ¬ k < 0 := not_lt.mpr hk
    constructor
    · simp [seek, hk2, ha]
    · simp only [seek, hk2, ha]
      simp [positionOf_setPosition s p k ha]
  · by_cases hk : k < 0
    · simp [seek, hk]
    · cases ha : isAssigned s p <;> simp [seek, hk, ha]

/-- C6 witness: seeking an assigned partition to `9` sets its position to
`9`, while a negative offset is rejected. -/
theorem seek_spec_witness :
    positionOf (seek startedState tpA 9).state tpA = some 9 ∧
    (seek startedState tpA (-1)).result = .error .assertionError := by
  constructor
  · exact ((seek_spec startedState tpA 9).2.2.1 (by norm_num) rfl).2
  · exact (seek_spec startedState tpA (-1)).1.mpr (Or.inl (by norm_num))

theorem lookupTP_applyRefresh (env : Env) (p : TopicPartition) :
    ∀ a : Assignment,
      lookupTP (a.map (fun x =>
        match env.refreshResult x.1 with
        | some c => (x.1, { x.2 with committed := some c })
        | none => x)) p =
      (lookupTP a p).map (fun st =>
        match env.refreshResult p with
        | some c => { st with committed := some c }
        | none => st)
  | [] => by simp [lookupTP]
  | hd :: tl => by
    by_cases hp : hd.1 = p
    · subst hp
      cases hr : env.refreshResult hd.1 <;> simp [lookupTP, hr]
    · cases hr : env.refreshResult hd.1 <;>
        simp [lookupTP, hr, hp, lookupTP_applyRefresh env p tl]

theorem lookupTP_applyRefresh_state (env : Env) (s : ConsumerState)
    (p : TopicPartition) :
    lookupTP (applyRefresh env s).assignment p =
      (lookupTP s.assignment p).map (fun st =>
        match env.refreshResult p with
        | some c => { st with committed := some c }
        | none => st) := by
  simp only [applyRefresh]
  exact lookupTP_applyRefresh env p s.assignment

theorem positionOf_applyRefresh (env : Env) (s : ConsumerState)
    (p : TopicPartition) :
    positionOf (applyRefresh env s) p = positionOf s p := by
  unfold positionOf
  rw [lookupTP_applyRefresh_state]
  cases lookupTP s.assignment p <;> cases hr : env.refreshResult p <;> simp [hr]

theorem isAssigned_applyRefresh (env : Env) (s : ConsumerState)
    (p : TopicPartition) :
    isAssigned (applyRefresh env s) p = isAssigned s p := by
  unfold isAssigned
  rw [lookupTP_applyRefresh_state]
  cases lookupTP s.assignment p <;> cases hr : env.refreshResult p <;> simp [hr]

theorem committedOf_applyRefresh (env : Env) (s : ConsumerState)
    (p : TopicPartition) (st : PartitionData)
    (h : lookupTP s.assignment p = some st) :
    committedOf (applyRefresh env s) p =
      match env.refreshResult p with
      | some c => some c
      | none => st.committed := by
  unfold committedOf
  rw [lookupTP_applyRefresh_state, h]
  cases hr : env.refreshResult p <;> simp [hr]

/-- C8: `committed(p)` with a group id: for an assigned `p` whose cached
committed value is unknown, exactly one coordinator
`refresh_committed_offsets` call is made, and if the broker knows no commit
for `p` the call returns `None`; for an unassigned `p`, exactly one
out-of-band `fetch_committed_offsets([p])` call is made, returning `None`
when the coordinator reports no prior commit. -/
theorem committed_lazy (env : Env) (s : ConsumerState) (p : TopicPartition)
    (g : String) (hg : s.groupId = some g) :
    (∀ st, lookupTP s.assignment p = some st → st.committed = none →
      (committedOp env s p).trace = [Effect.refreshCommitted] ∧
      (env.refreshResult p = none →
        (committedOp env s p).result = .ok none)) ∧
    (lookupTP s.assignment p = none →
      (committedOp env s p).trace = [Effect.fetchCommitted [p]] ∧
      (env.fetchCommittedResult p = none →
        (committedOp env s p).result = .ok none)) := by
  constructor
  · intro st hl hc
    constructor
    · simp [committedOp, hg, hl, hc]
    · intro hr
      simp [committedOp, hg, hl, hc,
        committedOf_applyRefresh env s p st hl, hr]
  · intro hl
    constructor
    · simp [committedOp, hg, hl]
    · intro hr
      simp [committedOp, hg, hl, hr]

/-- C8 witness: an assigned partition with unknown cache triggers one
refresh and yields `None`; an unassigned one triggers one out-of-band fetch
and yields `None`. -/
theorem committed_lazy_witness :
    ((committedOp env0 unresolvedState tpA).trace =
        [Effect.refreshCommitted] ∧
      (committedOp env0 unresolvedState tpA).result = .ok none) ∧
    ((committedOp env0 unresolvedState (TopicPartition.mk "U" 1)).trace =
        [Effect.fetchCommitted [TopicPartition.mk "U" 1]] ∧
      (committedOp env0 unresolvedState (TopicPartition.mk "U" 1)).result =
        .ok none) := by
  constructor
  · have h := (committed_lazy env0 unresolvedState tpA "g" rfl).1
      freshPartitionData (by decide) rfl
    exact ⟨h.1, h.2 rfl⟩
  · have h := (committed_lazy env0 unresolvedState
      (TopicPartition.mk "U" 1) "g" rfl).2 (by decide)
    exact ⟨h.1, h.2 rfl⟩

/-- C7: `seek_to_committed()` with no arguments and no assigned partitions
fails with an assertion error; and for each partition the loop processes
(one `seekToCommittedStep` per partition), the position is overwritten iff
the committed offset resolved for it by `committed(tp)` is strictly
positive — a committed offset of exactly `0` (or an unset / non-positive
one) leaves the position unchanged. -/
theorem seek_to_committed_spec (env : Env) (s : ConsumerState) (g : String)
    (hg : s.groupId = some g) :
    ((assignedPartitions s).isEmpty = true →
      seekToCommitted env s [] =
        { state := s, trace := [], result := .error .assertionError }) ∧
    (∀ tp, isAssigned s tp = true →
      (∀ v, (committedOp env s tp).result = .ok (some v) →
        (0 < v →
          positionOf (seekToCommittedStep env s tp).state tp = some v) ∧
        (v ≤ 0 →
          positionOf (seekToCommittedStep env s tp).state tp =
            positionOf s tp)) ∧
      ((committedOp env s tp).result = .ok none →
        positionOf (seekToCommittedStep env s tp).state tp =
          positionOf s tp)) := by
  constructor
  · intro h
    simp [seekToCommitted, h]
  · intro tp ha
    cases hl : lookupTP s.assignment tp with
    | none => simp [isAssigned, hl] at ha
    | some st =>
      cases hc : st.committed with
      | some c =>
        have hcomm : committedOp env s tp =
            { state := s, trace := [], result := .ok (some c) } := by
          simp [committedOp, hg, hl, hc]
        constructor
        · intro v hv
          rw [hcomm] at hv
          simp at hv
          subst hv
          constructor
          · intro hpos
            have hknn : ¬ c < 0 := by omega
            simp [seekToCommittedStep, hcomm, hpos, seek, hknn, ha,
              positionOf_setPosition s tp c ha]
          · intro hle
            have hnpos : ¬ (0 : Int) < c := by omega
            simp [seekToCommittedStep, hcomm, hnpos]
        · intro hv
          rw [hcomm] at hv
          simp at hv
      | none =>
        have hcomm : committedOp env s tp =
            { state := applyRefresh env s, trace := [Effect.refreshCommitted],
              result := .ok (committedOf (applyRefresh env s) tp) } := by
          simp [committedOp, hg, hl, hc]
        have hcof := committedOf_applyRefresh env s tp st hl
        cases hr : env.refreshResult tp with
        | some c =>
          rw [hr] at hcof
          constructor
          · intro v hv
            rw [hcomm] at hv
            simp [hcof] at hv
            subst hv
            have ha2 : isAssigned (applyRefresh env s) tp = true := by
              rw [isAssigned_applyRefresh]; exact ha
            constructor
            · intro hpos
              have hknn : ¬ c < 0 := by omega
              simp [seekToCommittedStep, hcomm, hcof, hpos, seek, hknn, ha2,
                positionOf_setPosition (applyRefresh env s) tp c ha2]
            · intro hle
              have hnpos : ¬ (0 : Int) < c := by omega
              simp [seekToCommittedStep, hcomm, hcof, hnpos,
                positionOf_applyRefresh]
          · intro hv
            rw [hcomm] at hv
            simp [hcof] at hv
        | none =>
          rw [hr] at hcof
          rw [hc] at hcof
          constructor
          · intro v hv
            rw [hcomm] at hv
            simp [hcof] at hv
          · intro _
            simp [seekToCommittedStep, hcomm, hcof,
              positionOf_applyRefresh]

/-- C7 witness: an empty assignment makes the no-argument call fail, a
refreshed committed offset of `7` overwrites the position, and an unknown
committed offset leaves it unchanged. -/
theorem seek_to_committed_spec_witness :
    seekToCommitted env0 { startedState with assignment := [] } [] =
      { state := { startedState with assignment := [] }, trace := [],
        result := .error .assertionError } ∧
    positionOf (seekToCommittedStep envRefresh7 unresolvedState tpA).state
      tpA = some 7 ∧
    positionOf (seekToCommittedStep env0 unresolvedState tpA).state tpA =
      positionOf unresolvedState tpA := by
  refine ⟨?_, ?_, ?_⟩
  · exact (seek_to_committed_spec env0
      { startedState with assignment := [] } "g" rfl).1 rfl
  · exact (((seek_to_committed_spec envRefresh7 unresolvedState "g" rfl).2
      tpA (by decide)).1 7 (by decide)).1 (by norm_num)
  · exact ((seek_to_committed_spec env0 unresolvedState "g" rfl).2
      tpA (by decide)).2 (by decide)

/-- C2: `getmany(timeout_ms=0)` with every position resolved and nothing
buffered returns the empty mapping after exactly one fetcher buffer query
and one poll-interval suspension — any fuel of at least one iteration
suffices, so the call never waits unboundedly. -/
theorem getmany_zero_timeout (env : Env) (s : ConsumerState)
    (ps : List TopicPartition) (fuel : Nat) (hf : 1 ≤ fuel)
    (hall : hasAllFetchPositions s = true)
    (hbuf : env.buffered 0 ps = [])
    (hmono : env.clock 0 ≤ env.clock 1) :
    getmany env s ps 0 fuel =
      { state := s, trace := [Effect.fetchedRecordsQuery ps, Effect.sleep],
        result := .ok (some []) } := by
  obtain ⟨m, rfl⟩ : ∃ m, fuel = m + 1 := ⟨fuel - 1, by omega⟩
  simp [getmany, getmanyLoop, hall, hbuf, hmono]

/-- C2 witness: one query, one sleep, empty result at timeout zero. -/
theorem getmany_zero_timeout_witness :
    getmany env0 startedState [] 0 1 =
      { state := startedState,
        trace := [Effect.fetchedRecordsQuery [], Effect.sleep],
        result := .ok (some []) } :=
  getmany_zero_timeout env0 startedState [] 1 (by norm_num) (by decide) rfl
    (by norm_num [env0])

theorem fetcherUpdate_mem_update (env : Env) (s : ConsumerState)
    (arg : PartitionsArg) :
    Effect.fetcherUpdate arg ∈ (updateFetchPositions env s arg).2 := by
  cases hg : s.groupId <;> simp [updateFetchPositions, hg]

/-- C4: when `position(p)` finds `p`'s position unresolved it hands the
position-resolution routine the bare partition `p` (`PartitionsArg.single`),
never a collection, whereas `getone` and `getmany` hand it the collection
of partitions with missing positions (`PartitionsArg.many`); the two
argument shapes are distinct values. -/
theorem position_passes_bare_partition (env : Env) (s : ConsumerState)
    (p : TopicPartition) (fuel : Nat)
    (ha : isAssigned s p = true) (hp : positionOf s p = none)
    (hm : hasAllFetchPositions s = false)
    (hne : (assignedPartitions s).isEmpty = false)
    (hf : 1 ≤ fuel) :
    (Effect.fetcherUpdate (.single p) ∈ (positionOp env s p).trace ∧
      ∀ l, Effect.fetcherUpdate (.many l) ∉ (positionOp env s p).trace) ∧
    Effect.fetcherUpdate (.many (missingFetchPositions s)) ∈
      (getone env s [p] fuel).trace ∧
    Effect.fetcherUpdate (.many (missingFetchPositions s)) ∈
      (getmany env s [p] 0 fuel).trace ∧
    (∀ q, PartitionsArg.single q ≠ PartitionsArg.many [q]) := by
  obtain ⟨m, rfl⟩ : ∃ m, fuel = m + 1 := ⟨fuel - 1, by omega⟩
  refine ⟨?_, ?_, ?_, ?_⟩
  · cases hgid : s.groupId with
    | none =>
      have htr : (positionOp env s p).trace =
          [Effect.fetcherUpdate (.single p)] := by
        simp [positionOp, ha, hp, updateFetchPositions, hgid]
      rw [htr]
      exact ⟨by simp, by intro l; simp⟩
    | some g =>
      have htr : (positionOp env s p).trace =
          [Effect.refreshCommitted, Effect.fetcherUpdate (.single p)] := by
        simp [positionOp, ha, hp, updateFetchPositions, hgid]
      rw [htr]
      exact ⟨by simp, by intro l; simp⟩
  · have hmem := fetcherUpdate_mem_update env s (.many (missingFetchPositions s))
    cases hu : updateFetchPositions env s (.many (missingFetchPositions s)) with
    | mk s1 tr1 =>
      rw [hu] at hmem
      simp only at hmem
      cases hnr : env.nextRecord 0 [p] with
      | some msg => simp [getone, getoneLoop, hne, hm, hu, hnr, hmem]
      | none => simp [getone, getoneLoop, hne, hm, hu, hnr, hmem]
  · have hmem := fetcherUpdate_mem_update env s (.many (missingFetchPositions s))
    cases hu : updateFetchPositions env s (.many (missingFetchPositions s)) with
    | mk s1 tr1 =>
      rw [hu] at hmem
      simp only at hmem
      simp [getmany, hm, hu, hmem]
  · intro q h
    exact PartitionsArg.noConfusion h

/-- C4 witness: `position` on the unresolved partition passes it bare. -/
theorem position_passes_bare_partition_witness :
    Effect.fetcherUpdate (.single tpA) ∈
      (positionOp env0 unresolvedState tpA).trace :=
  (position_passes_bare_partition env0 unresolvedState tpA 1 (by decide)
    (by decide) (by decide) (by decide) (by norm_num)).1.1

/-- C10: construction rejects any `api_version` other than `'auto'` and
`'0.9'` synchronously with a ValueError; and `start()` raises a ValueError
whenever the adopted (configured or auto-detected) version parses below
`(0, 9)`, before the Fetcher or the GroupCoordinator is constructed — the
fetcher/coordinator flags are untouched and no build step enters the trace. -/
theorem start_version_gate (env : Env) (s : ConsumerState) :
    (∀ v g t, v ≠ "auto" → v ≠ "0.9" →
      consumerInit v g t = .error .valueError) ∧
    (∀ tup, env.bootstrapResult = none →
      parseVersion (adoptedVersion env s) = some tup →
      tupLt tup [0, 9] = true →
      (start env s).result = .error .valueError ∧
      (start env s).state.hasFetcher = s.hasFetcher ∧
      (start env s).state.hasCoordinator = s.hasCoordinator ∧
      Effect.buildFetcher ∉ (start env s).trace ∧
      Effect.buildCoordinator ∉ (start env s).trace) := by
  constructor
  · intro v g t hv1 hv2
    simp [consumerInit, hv1, hv2]
  · intro tup hboot hparse htup
    by_cases hauto : s.apiVersionCfg = "auto" <;>
      simp [start, hboot, hparse, htup, hauto]

/-- C10 witness: `'0.8'` is rejected at construction, and a broker
auto-detected as `0.8.2` makes `start` fail before any build step. -/
theorem start_version_gate_witness :
    consumerInit "0.8" none [] = .error .valueError ∧
    (start envOldBroker autoState).result = .error .valueError ∧
    Effect.buildFetcher ∉ (start envOldBroker autoState).trace := by
  refine ⟨?_, ?_, ?_⟩
  · exact (start_version_gate envOldBroker autoState).1 "0.8" none []
      (by decide) (by decide)
  · exact ((start_version_gate envOldBroker autoState).2 [0, 8, 2] rfl
      (by decide) (by decide)).1
  · exact ((start_version_gate envOldBroker autoState).2 [0, 8, 2] rfl
      (by decide) (by decide)).2.2.2.1
